import Mathlib

/-!
Verification of the Manifold core of deal.II (`source/grid/manifold.cc`):
default quadrature builders, the generic weighted-average point placement,
the periodic-aware `FlatManifold` override, and the `ManifoldChart`
pull-back/push-forward composition.

Real (`double`) arithmetic is modelled over `ℚ`; a `Point n` is an
`n`-component coordinate vector `Fin n → ℚ`.  Debug assertions
(`Assert(...)`) are modelled as `Except` errors: each `Assert` that can
fire becomes a dedicated `DealError` value.
-/

/-- An `N`-component coordinate vector, as in `Point<N>`. -/
def Point (n : Nat) : Type := Fin n → ℚ

instance : Add (Point n) := ⟨fun p q d => p d + q d⟩

instance : Zero (Point n) := ⟨fun _ => 0⟩

instance : SMul ℚ (Point n) := ⟨fun w p d => w * p d⟩

instance : DecidableEq (Point n) := fun p q =>
  decidable_of_iff (∀ d, p d = q d) ⟨funext, fun h d => congrFun h d⟩

/-- The errors raised by the `Assert` statements of `manifold.cc`. -/
inductive DealError where
  /-- Raised as `ExcPureFunctionCalled` in `Manifold::project_to_manifold`. -/
  | pureFunctionCalled : DealError
  /-- Raised as `ExcMessage("Weights should sum to 1!")` (debug builds). -/
  | invalidWeights : DealError
  /-- Raised as `ExcMessage("One of the points does not lye into the periodic box! ...")`. -/
  | outOfPeriodicBox : DealError
  /-- Raised as `ExcImpossibleInDim` in the degenerate-dimension dispatchers. -/
  | impossibleInDim : DealError
  /-- Raised as `ExcInternalError` in the generic quadrature builder default branch. -/
  | internalError : DealError
  deriving DecidableEq, Repr

instance {ε α : Type} [DecidableEq ε] [DecidableEq α] :
    DecidableEq (Except ε α) := fun x y =>
  match x, y with
  | .ok a, .ok b => decidable_of_iff (a = b) (by simp)
  | .error a, .error b => decidable_of_iff (a = b) (by simp)
  | .ok _, .error _ => .isFalse (by simp)
  | .error _, .ok _ => .isFalse (by simp)

/-- Model of `Quadrature<N>`: positionally aligned sample points and weights. -/
structure Quadrature (n : Nat) where
  points : List (Point n)
  weights : List ℚ
  aligned : points.length = weights.length

/-- The tolerance `1e-10` used by the weight-sum and periodic-box assertions. -/
def tol : ℚ := 1 / 10000000000

/-- The weighted sum `Σ_i weight_i · sample_i` accumulated by the
`p += surrounding_points[i]*weights[i]` loops. -/
def wsum : List (Point n) → List ℚ → Point n
  | x :: xs, w :: ws => w • x + wsum xs ws
  | _, _ => 0

/-- Scalar version of `wsum`, used to speak about a single axis. -/
def wsumQ : List ℚ → List ℚ → ℚ
  | x :: xs, w :: ws => w * x + wsumQ xs ws
  | _, _ => 0

/-- Entity accessors, abstracting the triangulation iterators consumed by
the quadrature builders: a line exposes its two vertices. -/
structure LineAccessor (n : Nat) where
  vertex : Fin 2 → Point n

/-- A quad exposes its four vertices and, for each of its four lines,
whether it has children, the child vertex `line(i)->child(0)->vertex(1)`,
and the center `line(i)->center()`. -/
structure QuadAccessor (n : Nat) where
  vertex : Fin 4 → Point n
  lineHasChildren : Fin 4 → Bool
  lineChildVertex : Fin 4 → Point n
  lineCenter : Fin 4 → Point n

/-- A hex exposes its 8 vertices, 12 lines and 6 faces, with the sampled
child vertices `line(i)->child(0)->vertex(1)` and
`face(i)->isotropic_child(0)->vertex(3)` and the centers. -/
structure HexAccessor (n : Nat) where
  vertex : Fin 8 → Point n
  lineHasChildren : Fin 12 → Bool
  lineChildVertex : Fin 12 → Point n
  lineCenter : Fin 12 → Point n
  faceHasChildren : Fin 6 → Bool
  faceChildVertex : Fin 6 → Point n
  faceCenter : Fin 6 → Point n

/-- A mesh entity of topological dimension 1, 2 or 3 (the
`structure_dimension` of the accessor behind an iterator). -/
inductive EntityAccessor (n : Nat) where
  | line (a : LineAccessor n)
  | quad (a : QuadAccessor n)
  | hex (a : HexAccessor n)

/-- The 3-d-specific free function
`Manifolds::get_default_quadrature(const TriaIterator<CellAccessor<3,3>>&, Quadrature<3>&)`:
8 vertices at weight `1/128`, 12 line samples at weight `7/192`,
6 face samples at weight `1/12`. -/
def Manifolds.get_default_quadrature_hex (obj : HexAccessor n) : Quadrature n where
  points :=
    (List.ofFn fun i : Fin 8 => obj.vertex i) ++
    (List.ofFn fun i : Fin 12 =>
      if obj.lineHasChildren i then obj.lineChildVertex i else obj.lineCenter i) ++
    (List.ofFn fun i : Fin 6 =>
      if obj.faceHasChildren i then obj.faceChildVertex i else obj.faceCenter i)
  weights :=
    List.replicate 8 (1/128 : ℚ) ++ List.replicate 12 (7/192 : ℚ) ++
    List.replicate 6 (1/12 : ℚ)
  aligned := by simp

/-- The generic template
`Manifolds::get_default_quadrature(const OBJECT&, Quadrature<spacedim>&, bool)`,
switching on the structure dimension of the accessor.  Its `default:` branch is
`Assert(false, ExcInternalError())`: no branch handles dimension 3. -/
def Manifolds.get_default_quadrature (obj : EntityAccessor n)
    (with_laplace : Bool) : Except DealError (Quadrature n) :=
  match obj with
  | .line a => .ok ⟨[a.vertex 0, a.vertex 1], [1/2, 1/2], rfl⟩
  | .quad a => .ok
      { points :=
          [a.vertex 0, a.vertex 1, a.vertex 2, a.vertex 3] ++
          (List.ofFn fun i : Fin 4 =>
            if a.lineHasChildren i then a.lineChildVertex i else a.lineCenter i)
        weights :=
          if with_laplace then
            List.replicate 4 (1/16 : ℚ) ++ List.replicate 4 (3/16 : ℚ)
          else List.replicate 8 (1/8 : ℚ)
        aligned := by cases with_laplace <;> simp }
  | .hex _ => .error .internalError

/-- Model of `Manifold<dim,spacedim>::get_new_point`: the debug weight-sum check,
then the weighted centroid, handed to the (virtual) `project_to_manifold`
together with the original, unmodified sample sequence. -/
def Manifold.get_new_point
    (project : List (Point n) → Point n → Except DealError (Point n))
    (quad : Quadrature n) : Except DealError (Point n) :=
  if ¬ (|quad.weights.sum - 1| < tol) then .error .invalidWeights
  else project quad.points (wsum quad.points quad.weights)

/-- The base-class `Manifold::project_to_manifold`:
`Assert(false, ExcPureFunctionCalled())`. -/
def Manifold.project_to_manifold (n : Nat) :
    List (Point n) → Point n → Except DealError (Point n) :=
  fun _ _ => .error .pureFunctionCalled

/-- Model of `FlatManifold::project_to_manifold`: returns the candidate unchanged. -/
def FlatManifold.project_to_manifold (vertices : List (Point n))
    (candidate : Point n) : Point n :=
  candidate

/-- The per-axis minimum `minP`, initialised to the periodicity vector and
folded with the coordinates of every sample. -/
def minCoord (periodicity : Point n) (pts : List (Point n)) : Point n :=
  fun d => pts.foldr (fun x m => min (x d) m) (periodicity d)

/-- Model of `bool check_period = (periodicity.norm() != 0)`: the Euclidean norm of
the periodicity vector is nonzero exactly when some component is. -/
def checkPeriod (periodicity : Point n) : Bool :=
  (List.finRange n).any fun d => decide (periodicity d ≠ 0)

/-- The periodic-box assertion of `FlatManifold::get_new_point`: some
sample, on some axis of positive period, fails
`surrounding_points[i][d] < periodicity[d] + 1e-10`. -/
def outsideBox (periodicity : Point n) (pts : List (Point n)) : Bool :=
  pts.any fun x => (List.finRange n).any fun d =>
    decide (0 < periodicity d) && decide (¬ (x d < periodicity d + tol))

/-- The shift applied to every sample before weighting: on each axis of
positive period, a sample more than half a period above `minP` is moved
down by one period (the translation of `surrounding_points[i] + dp`). -/
def adjustedPoints (periodicity : Point n) (pts : List (Point n)) :
    List (Point n) :=
  pts.map fun x d =>
    if checkPeriod periodicity && decide (0 < periodicity d) &&
        decide (periodicity d / 2 < x d - minCoord periodicity pts d)
    then x d - periodicity d else x d

/-- The final wrap of the weighted sum: on each axis of positive period a
negative coordinate is shifted back up by one period. -/
def wrapResult (periodicity p : Point n) : Point n :=
  fun d =>
    if checkPeriod periodicity && decide (0 < periodicity d) && decide (p d < 0)
    then p d + periodicity d else p d

/-- Model of `FlatManifold<dim,spacedim>::get_new_point`: periodic-aware weighted
averaging.  When `check_period` holds, each sample on each axis of positive
period must satisfy `x[d] < periodicity[d] + 1e-10`; samples more than half
a period above the minimum are shifted down by one period before weighting,
and a negative periodic coordinate of the sum is shifted back up by one
period. -/
def FlatManifold.get_new_point (periodicity : Point n)
    (quad : Quadrature n) : Except DealError (Point n) :=
  let pts := quad.points
  let wts := quad.weights
  if ¬ (|wts.sum - 1| < tol) then .error .invalidWeights
  else if checkPeriod periodicity && outsideBox periodicity pts then
    .error .outOfPeriodicBox
  else
    .ok (FlatManifold.project_to_manifold pts
      (wrapResult periodicity (wsum (adjustedPoints periodicity pts) wts)))

/-- Model of `ManifoldChart<dim,spacedim,chartdim>`: the chart maps and the owned
periodic sub-manifold `FlatManifold<chartdim,chartdim>`, represented by
its construction-time periodicity vector. -/
structure ManifoldChart (n c : Nat) where
  pull_back : Point n → Point c
  push_forward : Point c → Point n
  sub_manifold : Point c

/-- Model of `ManifoldChart::get_new_point`: pull every sample back into chart
coordinates, keep the weights, delegate to the sub-manifold, push the
result forward. -/
def ManifoldChart.get_new_point (M : ManifoldChart n c)
    (quad : Quadrature n) : Except DealError (Point n) :=
  let chart_points := quad.points.map M.pull_back
  let chart_quad : Quadrature c :=
    ⟨chart_points, quad.weights, by simpa [chart_points] using quad.aligned⟩
  (FlatManifold.get_new_point M.sub_manifold chart_quad).map M.push_forward

/-- Model of `Manifold::get_new_point_on_line`: build the default quadrature of the line
(`with_laplace` defaulted to `false`) and hand it to the virtual
`get_new_point`, abstracted here as `gnp`. -/
def Manifold.get_new_point_on_line
    (gnp : Quadrature n → Except DealError (Point n))
    (e : EntityAccessor n) : Except DealError (Point n) :=
  (Manifolds.get_default_quadrature e false).bind gnp

/-- Model of `Manifold::get_new_point_on_quad`, with the `Manifold<1,*>`
specializations that fail with `ExcImpossibleInDim(1)`. -/
def Manifold.get_new_point_on_quad (dim : Nat)
    (gnp : Quadrature n → Except DealError (Point n))
    (e : EntityAccessor n) : Except DealError (Point n) :=
  if dim = 1 then .error .impossibleInDim
  else (Manifolds.get_default_quadrature e false).bind gnp

/-- Model of `Manifold::get_new_point_on_face`: `Assert(dim>1)` (and the
`Manifold<1,*>` specializations) then dispatch on `dim`: a face is a line
for `dim = 2`, a quad for `dim = 3`; any other surviving dimension falls
through to `return Point<spacedim>()`. -/
def Manifold.get_new_point_on_face (dim : Nat)
    (gnp : Quadrature n → Except DealError (Point n))
    (e : EntityAccessor n) : Except DealError (Point n) :=
  if dim ≤ 1 then .error .impossibleInDim
  else if dim = 2 then Manifold.get_new_point_on_line gnp e
  else if dim = 3 then Manifold.get_new_point_on_quad dim gnp e
  else .ok 0

/-- Model of `Manifold::get_new_point_on_hex`: the generic template is
`Assert(false, ExcImpossibleInDim(dim))`; only the `Manifold<3,3>`
specialization builds the hex default quadrature and averages it. -/
def Manifold.get_new_point_on_hex (dim : Nat)
    (gnp : Quadrature n → Except DealError (Point n))
    (h : HexAccessor n) : Except DealError (Point n) :=
  if dim = 3 then gnp (Manifolds.get_default_quadrature_hex h)
  else .error .impossibleInDim

/-! ## Concrete inputs used by witnesses and counterexamples -/

/-- A concrete one-dimensional point. -/
def pt1 (a : ℚ) : Point 1 := fun _ => a

/-- A concrete two-dimensional point. -/
def pt2 (a b : ℚ) : Point 2 := fun d => if d.val = 0 then a else b

/-- A one-dimensional two-sample quadrature with equal weights. -/
def quadTwo (a b : ℚ) : Quadrature 1 := ⟨[pt1 a, pt1 b], [1/2, 1/2], rfl⟩

/-- A degenerate concrete line accessor. -/
def lineAcc0 : LineAccessor 1 := ⟨fun _ => pt1 0⟩

/-- A degenerate concrete hex accessor in one-dimensional space. -/
def hexAcc0 : HexAccessor 1 :=
  ⟨fun _ => pt1 0, fun _ => false, fun _ => pt1 0, fun _ => pt1 0,
   fun _ => false, fun _ => pt1 0, fun _ => pt1 0⟩

/-- A concrete three-dimensional point. -/
def pt3 (a : ℚ) : Point 3 := fun _ => a

/-- A degenerate concrete hex accessor in three-dimensional space. -/
def hexAcc3 : HexAccessor 3 :=
  ⟨fun _ => pt3 0, fun _ => false, fun _ => pt3 0, fun _ => pt3 0,
   fun _ => false, fun _ => pt3 0, fun _ => pt3 0⟩

/-- A two-axis periodicity vector: axis 0 has period 1, axis 1 is free. -/
def perC10 : Point 2 := pt2 1 0

/-- A two-sample quadrature in two dimensions that wraps on axis 0. -/
def quadC10 : Quadrature 2 := ⟨[pt2 (1/10) 5, pt2 (9/10) 7], [1/2, 1/2], rfl⟩


/-! ## Helper lemmas -/

theorem Point.add_apply (p q : Point n) (d : Fin n) : (p + q) d = p d + q d := rfl

theorem Point.smul_apply (w : ℚ) (p : Point n) (d : Fin n) : (w • p) d = w * p d := rfl

theorem Point.zero_apply (d : Fin n) : (0 : Point n) d = 0 := rfl

theorem tol_pos : 0 < tol := by norm_num [tol]

theorem wsum_apply (pts : List (Point n)) (wts : List ℚ) (d : Fin n) :
    wsum pts wts d = wsumQ (pts.map fun x => x d) wts := by
  induction pts generalizing wts with
  | nil => cases wts <;> rfl
  | cons x xs ih =>
    cases wts with
    | nil => rfl
    | cons w ws =>
      show (w • x + wsum xs ws) d = w * x d + wsumQ (xs.map fun y => y d) ws
      rw [Point.add_apply, Point.smul_apply, ih]

theorem wsumQ_const (xs ws : List ℚ) (c : ℚ) (h : ∀ x ∈ xs, x = c)
    (hl : xs.length = ws.length) : wsumQ xs ws = ws.sum * c := by
  induction xs generalizing ws with
  | nil =>
    cases ws with
    | nil => simp [wsumQ]
    | cons w ws => simp at hl
  | cons x xs ih =>
    cases ws with
    | nil => simp at hl
    | cons w ws =>
      have hx : x = c := h x (by simp)
      rw [wsumQ, hx, ih ws (fun y hy => h y (by simp [hy])) (by simpa using hl),
        List.sum_cons]
      ring

theorem minCoord_const (periodicity P : Point n) (pts : List (Point n)) (d : Fin n)
    (hne : pts ≠ []) (h : ∀ x ∈ pts, x = P) :
    minCoord periodicity pts d = min (periodicity d) (P d) := by
  induction pts with
  | nil => exact absurd rfl hne
  | cons x xs ih =>
    have hx : x = P := h x (by simp)
    by_cases hxs : xs = []
    · subst hxs
      show min (x d) (periodicity d) = min (periodicity d) (P d)
      rw [hx, min_comm]
    · have hrec := ih hxs (fun y hy => h y (by simp [hy]))
      show min (x d) (minCoord periodicity xs d) = min (periodicity d) (P d)
      rw [hx, hrec, min_left_comm, min_self]

theorem checkPeriod_iff (periodicity : Point n) :
    checkPeriod periodicity = true ↔ ∃ d, periodicity d ≠ 0 := by
  simp [checkPeriod, List.any_eq_true, List.mem_finRange]

theorem outsideBox_iff (periodicity : Point n) (pts : List (Point n)) :
    outsideBox periodicity pts = true ↔
      ∃ x ∈ pts, ∃ d, 0 < periodicity d ∧ periodicity d + tol ≤ x d := by
  simp [outsideBox, List.any_eq_true, List.mem_finRange, not_lt]

/-! ## Claims -/

/-- C1: for every quadrature whose weights pass the debug sum check,
`Manifold::get_new_point` returns `project_to_manifold` applied to the
original, unmodified sample sequence and the weighted centroid
`Σ_i weight_i · sample_i`. -/
theorem manifold_get_new_point_is_projected_centroid
    (project : List (Point n) → Point n → Except DealError (Point n))
    (quad : Quadrature n) (hw : |quad.weights.sum - 1| < tol) :
    Manifold.get_new_point project quad =
      project quad.points (wsum quad.points quad.weights) := by
  rw [Manifold.get_new_point, if_neg (not_not_intro hw)]

theorem manifold_get_new_point_is_projected_centroid_witness :
    |((quadTwo (1/10) (9/10)).weights.sum : ℚ) - 1| < tol ∧
      Manifold.get_new_point (Manifold.project_to_manifold 1)
        (quadTwo (1/10) (9/10)) = Except.error .pureFunctionCalled := by
  refine ⟨by norm_num [quadTwo, tol], ?_⟩
  exact (manifold_get_new_point_is_projected_centroid
    (Manifold.project_to_manifold 1) (quadTwo (1/10) (9/10))
    (by norm_num [quadTwo, tol])).trans rfl

/-- C2: over a one-dimensional space with periodicity `1`, averaging the
samples `0.1` and `0.9` with weights `0.5` each yields the wrapped-around
circular mean `0`, not `0.5`. -/
theorem flat_periodic_wrap_example :
    FlatManifold.get_new_point (pt1 1) (quadTwo (1/10) (9/10)) =
      Except.ok (pt1 0) ∧ pt1 0 ≠ pt1 (1/2) := by
  constructor
  · simp only [FlatManifold.get_new_point, FlatManifold.project_to_manifold,
      adjustedPoints, wrapResult, quadTwo, checkPeriod, outsideBox, minCoord,
      wsum, tol, List.finRange, List.any, List.sum, List.map, List.foldr, pt1]
    norm_num
    funext d
    simp only [wrapResult, checkPeriod, List.finRange, List.any, pt1,
      Point.add_apply, Point.smul_apply, Point.zero_apply]
    norm_num
  · intro h
    have := congrFun h 0
    norm_num [pt1] at this

/-- C6: `ManifoldChart::get_new_point` pulls every sample back, builds the
chart-space quadrature with exactly the original weights, delegates to the
owned periodic sub-manifold, and pushes the result forward. -/
theorem chart_get_new_point_delegates (M : ManifoldChart n c)
    (quad : Quadrature n) :
    M.get_new_point quad =
      (FlatManifold.get_new_point M.sub_manifold
        ⟨quad.points.map M.pull_back, quad.weights,
          by simpa using quad.aligned⟩).map M.push_forward := rfl

/-- C9: a face or quad query on a manifold of topological dimension 1, and
a hex query on a manifold of dimension other than 3, fail with the
impossible-in-dimension violation, for every virtual `get_new_point` and
every entity. -/
theorem degenerate_dimension_queries_fail
    (gnp : Quadrature n → Except DealError (Point n)) (e : EntityAccessor n)
    (ha : HexAccessor n) (dim : Nat) (hdim : dim ≠ 3) :
    Manifold.get_new_point_on_face 1 gnp e = Except.error .impossibleInDim ∧
    Manifold.get_new_point_on_quad 1 gnp e = Except.error .impossibleInDim ∧
    Manifold.get_new_point_on_hex dim gnp ha = Except.error .impossibleInDim := by
  refine ⟨rfl, rfl, ?_⟩
  rw [Manifold.get_new_point_on_hex, if_neg hdim]

theorem degenerate_dimension_queries_fail_witness :
    (2 ≠ 3) ∧
    Manifold.get_new_point_on_face 1 (fun _ => Except.ok 0)
      (EntityAccessor.line lineAcc0) = Except.error .impossibleInDim ∧
    Manifold.get_new_point_on_quad 1 (fun _ => Except.ok 0)
      (EntityAccessor.line lineAcc0) = Except.error .impossibleInDim ∧
    Manifold.get_new_point_on_hex 2 (fun _ => Except.ok 0) hexAcc0 =
      Except.error .impossibleInDim := by
  have h := degenerate_dimension_queries_fail (n := 1) (fun _ => Except.ok 0)
    (EntityAccessor.line lineAcc0) hexAcc0 2 (by decide)
  exact ⟨by decide, h.1, h.2.1, h.2.2⟩

/-- C3 counterexample: with period `1`, the sample coordinate `-1/2` lies
outside `[0, 1)` by far more than the tolerance, yet
`FlatManifold::get_new_point` returns a numeric result instead of failing:
the code checks only the upper bound of the periodic box. -/
theorem flat_below_box_counterexample :
    pt1 (-(1/2)) 0 < 0 - tol ∧
    FlatManifold.get_new_point (pt1 1) (quadTwo (-(1/2)) (1/2)) =
      Except.ok (pt1 (1/2)) := by
  refine ⟨by norm_num [pt1, tol], ?_⟩
  simp only [FlatManifold.get_new_point, FlatManifold.project_to_manifold,
    adjustedPoints, wrapResult, quadTwo, checkPeriod, outsideBox, minCoord,
    wsum, tol, List.finRange, List.any, List.sum, List.map, List.foldr, pt1]
  norm_num
  funext d
  simp only [wrapResult, checkPeriod, List.finRange, List.any, pt1,
    Point.add_apply, Point.smul_apply, Point.zero_apply]
  norm_num

/-- C3 amended: when the periodicity vector is nonzero and the weights pass
the debug sum check, `FlatManifold::get_new_point` fails with the
geometry-out-of-bounds violation exactly when some sample coordinate on an
axis of positive period `L` is at least `L + 1e-10`: only the upper bound
of `[0, L)` is enforced (with tolerance), and coordinates below `0` are
accepted. -/
theorem flat_bounds_check_upper_only (periodicity : Point n)
    (quad : Quadrature n) (hper : ∃ d, periodicity d ≠ 0)
    (hw : |quad.weights.sum - 1| < tol) :
    FlatManifold.get_new_point periodicity quad =
        Except.error .outOfPeriodicBox ↔
      ∃ x ∈ quad.points, ∃ d, 0 < periodicity d ∧
        periodicity d + tol ≤ x d := by
  rw [FlatManifold.get_new_point]
  rw [if_neg (not_not_intro hw)]
  by_cases hob : outsideBox periodicity quad.points = true
  · rw [if_pos (by rw [(checkPeriod_iff periodicity).2 hper, hob]; rfl)]
    simp only [true_iff]
    exact (outsideBox_iff periodicity quad.points).1 hob
  · rw [if_neg (by rw [Bool.eq_false_iff.2 hob, Bool.and_false]; exact Bool.false_ne_true)]
    constructor
    · intro h; exact absurd h (by simp)
    · intro h; exact absurd ((outsideBox_iff periodicity quad.points).2 h) hob

theorem flat_bounds_check_upper_only_witness :
    FlatManifold.get_new_point (pt1 1) (quadTwo (3/2) (1/10)) =
      Except.error .outOfPeriodicBox := by
  refine (flat_bounds_check_upper_only (pt1 1) (quadTwo (3/2) (1/10))
    ⟨0, by norm_num [pt1]⟩ (by norm_num [quadTwo, tol])).2 ?_
  exact ⟨pt1 (3/2), by simp [quadTwo], 0, by norm_num [pt1], by norm_num [pt1, tol]⟩

/-- C4: the hex default quadrature builder produces the 8 corner vertices
at weight `1/128`, then the 12 edge samples (child vertex if refined, else
center) at weight `7/192`, then the 6 face samples (isotropic-child vertex
if refined, else center) at weight `1/12`; 26 aligned pairs in total, with
weights summing to exactly `1`. -/
theorem hex_default_quadrature_spec (obj : HexAccessor n) :
    (Manifolds.get_default_quadrature_hex obj).points =
      (List.ofFn fun i : Fin 8 => obj.vertex i) ++
      (List.ofFn fun i : Fin 12 =>
        if obj.lineHasChildren i then obj.lineChildVertex i
        else obj.lineCenter i) ++
      (List.ofFn fun i : Fin 6 =>
        if obj.faceHasChildren i then obj.faceChildVertex i
        else obj.faceCenter i) ∧
    (Manifolds.get_default_quadrature_hex obj).weights =
      List.replicate 8 (1/128 : ℚ) ++ List.replicate 12 (7/192 : ℚ) ++
      List.replicate 6 (1/12 : ℚ) ∧
    (Manifolds.get_default_quadrature_hex obj).points.length = 26 ∧
    (Manifolds.get_default_quadrature_hex obj).weights.length = 26 ∧
    (Manifolds.get_default_quadrature_hex obj).weights.sum = 1 := by
  refine ⟨rfl, rfl, by simp [Manifolds.get_default_quadrature_hex],
    by simp [Manifolds.get_default_quadrature_hex], ?_⟩
  simp [Manifolds.get_default_quadrature_hex, List.sum_replicate, nsmul_eq_mul]
  norm_num

/-- C5: the generic builder produces, for a line, the two vertices at
weight `1/2` each; for a quad, the 4 corner vertices then the 4 edge
samples, all at weight `1/8` in plain mode and at `1/16` (corners) and
`3/16` (edge samples) in Laplace mode; the weights sum to `1` within
`1e-10` in every case. -/
theorem generic_default_quadrature_spec (la : LineAccessor n)
    (qa : QuadAccessor n) (w : Bool) :
    (∃ q, Manifolds.get_default_quadrature (EntityAccessor.line la) w =
        Except.ok q ∧
      q.points = [la.vertex 0, la.vertex 1] ∧
      q.weights = [1/2, 1/2] ∧ q.points.length = 2 ∧
      |q.weights.sum - 1| < tol) ∧
    (∃ q, Manifolds.get_default_quadrature (EntityAccessor.quad qa) w =
        Except.ok q ∧
      q.points = [qa.vertex 0, qa.vertex 1, qa.vertex 2, qa.vertex 3] ++
        (List.ofFn fun i : Fin 4 =>
          if qa.lineHasChildren i then qa.lineChildVertex i
          else qa.lineCenter i) ∧
      q.weights = (if w then
          List.replicate 4 (1/16 : ℚ) ++ List.replicate 4 (3/16 : ℚ)
        else List.replicate 8 (1/8 : ℚ)) ∧
      q.points.length = 8 ∧ |q.weights.sum - 1| < tol) := by
  constructor
  · exact ⟨_, rfl, rfl, rfl, rfl, by norm_num [tol]⟩
  · refine ⟨_, rfl, rfl, rfl, by simp, ?_⟩
    cases w <;>
      simp [List.sum_replicate, nsmul_eq_mul] <;> norm_num [tol]

/-- C8 counterexample: on a concrete hex entity the generic template
builder fails with the internal error (its switch has no dimension-3
branch), while the 3-d-specific free function produces the 26-sample
quadrature, so the two are not functionally identical. -/
theorem hex_generic_template_diverges :
    Manifolds.get_default_quadrature (EntityAccessor.hex hexAcc3) false =
      Except.error .internalError ∧
    (Manifolds.get_default_quadrature_hex hexAcc3).points.length = 26 := by
  exact ⟨rfl, by simp [Manifolds.get_default_quadrature_hex]⟩

/-- C8 amended: the generic template builder has no dimension-3 branch:
on every hex entity it fails with the internal error, while the
3-d-specific free function is the sole producer of the hex sample/weight
set (26 aligned pairs with weights summing to `1`). -/
theorem hex_fast_path_sole_builder (ha : HexAccessor n) (w : Bool) :
    Manifolds.get_default_quadrature (EntityAccessor.hex ha) w =
      Except.error .internalError ∧
    (Manifolds.get_default_quadrature_hex ha).points.length = 26 ∧
    (Manifolds.get_default_quadrature_hex ha).weights.sum = 1 := by
  refine ⟨rfl, by simp [Manifolds.get_default_quadrature_hex], ?_⟩
  simp [Manifolds.get_default_quadrature_hex, List.sum_replicate, nsmul_eq_mul]
  norm_num
/-- C7: a quadrature all of whose samples equal a single point `P`, with
weights summing exactly to `1`, is mapped by `FlatManifold::get_new_point`
to exactly `P`, also when axes are periodic and `P` lies inside the
periodic box on every periodic axis. -/
theorem flat_constant_quadrature_fixed (periodicity P : Point n)
    (quad : Quadrature n) (hpts : ∀ x ∈ quad.points, x = P)
    (hw : quad.weights.sum = 1)
    (hbox : ∀ d, 0 < periodicity d → 0 ≤ P d ∧ P d < periodicity d) :
    FlatManifold.get_new_point periodicity quad = Except.ok P := by
  have htol := tol_pos
  have hw10 : |quad.weights.sum - 1| < tol := by rw [hw]; simpa using htol
  have hne : quad.points ≠ [] := by
    intro hnil
    have hwnil : quad.weights = [] := by
      have hlen := quad.aligned
      rw [hnil] at hlen
      exact List.length_eq_zero.1 hlen.symm
    rw [hwnil] at hw
    simp at hw
  have hob : outsideBox periodicity quad.points = false := by
    rw [Bool.eq_false_iff]
    intro hcontra
    rcases (outsideBox_iff periodicity quad.points).1 hcontra with
      ⟨x, hx, d, hd, hge⟩
    rw [hpts x hx] at hge
    have hlt := (hbox d hd).2
    linarith
  have hkey : ∀ d, wsum (adjustedPoints periodicity quad.points)
      quad.weights d = P d := by
    intro d
    rw [wsum_apply]
    have hmap : ∀ y ∈ (adjustedPoints periodicity quad.points).map
        fun x => x d, y = P d := by
      intro y hy
      rcases List.mem_map.1 hy with ⟨x, hx, rfl⟩
      rcases List.mem_map.1 hx with ⟨z, hz, rfl⟩
      show (if checkPeriod periodicity && decide (0 < periodicity d) &&
          decide (periodicity d / 2 <
            z d - minCoord periodicity quad.points d)
        then z d - periodicity d else z d) = P d
      by_cases hLd : 0 < periodicity d
      · have hmin : minCoord periodicity quad.points d = P d := by
          rw [minCoord_const periodicity P quad.points d hne hpts]
          exact min_eq_right (le_of_lt (hbox d hLd).2)
        have hzP : z d = P d := by rw [hpts z hz]
        have hcond : decide (periodicity d / 2 <
            z d - minCoord periodicity quad.points d) = false := by
          rw [hmin, hzP, sub_self, decide_eq_false_iff_not]
          intro hlt
          linarith
        rw [hcond, Bool.and_false, if_neg Bool.false_ne_true]
        exact hzP
      · have hB : decide (0 < periodicity d) = false := by
          rw [decide_eq_false_iff_not]; exact hLd
        rw [hB, Bool.and_false, Bool.false_and, if_neg Bool.false_ne_true]
        exact congrFun (hpts z hz) d
    have hlen : ((adjustedPoints periodicity quad.points).map
        fun x => x d).length = quad.weights.length := by
      simp [adjustedPoints, quad.aligned]
    rw [wsumQ_const _ _ (P d) hmap hlen, hw, one_mul]
  have hsum : wsum (adjustedPoints periodicity quad.points) quad.weights = P :=
    funext hkey
  rw [FlatManifold.get_new_point]
  rw [if_neg (not_not_intro hw10)]
  rw [if_neg (by rw [hob, Bool.and_false]; exact Bool.false_ne_true)]
  refine congrArg Except.ok ?_
  show wrapResult periodicity
    (wsum (adjustedPoints periodicity quad.points) quad.weights) = P
  rw [hsum]
  funext d
  show (if checkPeriod periodicity && decide (0 < periodicity d) &&
      decide (P d < 0) then P d + periodicity d else P d) = P d
  by_cases hLd : 0 < periodicity d
  · have hC : decide (P d < 0) = false := by
      rw [decide_eq_false_iff_not]
      exact not_lt.2 (hbox d hLd).1
    rw [hC, Bool.and_false, if_neg Bool.false_ne_true]
  · have hB : decide (0 < periodicity d) = false := by
      rw [decide_eq_false_iff_not]; exact hLd
    rw [hB, Bool.and_false, Bool.false_and, if_neg Bool.false_ne_true]

theorem flat_constant_quadrature_fixed_witness :
    FlatManifold.get_new_point (pt1 1)
      ⟨[pt1 (1/3), pt1 (1/3)], [1/4, 3/4], rfl⟩ = Except.ok (pt1 (1/3)) := by
  refine flat_constant_quadrature_fixed (pt1 1) (pt1 (1/3)) _ ?_ ?_ ?_
  · intro x hx
    rcases List.mem_cons.1 hx with rfl | hx
    · rfl
    · rcases List.mem_cons.1 hx with rfl | hx
      · rfl
      · simp at hx
  · norm_num
  · intro d hd
    constructor <;> norm_num [pt1]

theorem wrapResult_apply (periodicity p : Point n) (d : Fin n) :
    wrapResult periodicity p d =
      if checkPeriod periodicity && decide (0 < periodicity d) &&
          decide (p d < 0)
      then p d + periodicity d else p d := rfl

/-- C10: on every axis whose periodicity entry is `0`, the coordinate of a
point returned by `FlatManifold::get_new_point` equals the plain weighted
sum of the sample coordinates on that axis: neither the wrap adjustment
nor the final re-normalization touches non-periodic axes, also when other
axes are periodic. -/
theorem flat_nonperiodic_axis_plain_average (periodicity : Point n)
    (quad : Quadrature n) (p : Point n) (d : Fin n)
    (hok : FlatManifold.get_new_point periodicity quad = Except.ok p)
    (hd : periodicity d = 0) :
    p d = wsumQ (quad.points.map fun x => x d) quad.weights := by
  have hB : decide (0 < periodicity d) = false := by
    rw [decide_eq_false_iff_not, hd]
    exact lt_irrefl 0
  rw [FlatManifold.get_new_point] at hok
  by_cases h1 : ¬ (|quad.weights.sum - 1| < tol)
  · rw [if_pos h1] at hok
    exact absurd hok (by simp)
  · rw [if_neg h1] at hok
    by_cases h2 : (checkPeriod periodicity &&
        outsideBox periodicity quad.points) = true
    · rw [if_pos h2] at hok
      exact absurd hok (by simp)
    · rw [if_neg h2] at hok
      have hp : wrapResult periodicity
          (wsum (adjustedPoints periodicity quad.points) quad.weights) = p :=
        Except.ok.inj hok
      rw [← hp, wrapResult_apply, hB, Bool.and_false, Bool.false_and,
        if_neg Bool.false_ne_true, wsum_apply]
      have hmapeq : (adjustedPoints periodicity quad.points).map
          (fun x => x d) = quad.points.map fun x => x d := by
        rw [adjustedPoints, List.map_map]
        apply List.map_congr_left
        intro x hx
        show (if checkPeriod periodicity && decide (0 < periodicity d) &&
            decide (periodicity d / 2 <
              x d - minCoord periodicity quad.points d)
          then x d - periodicity d else x d) = x d
        rw [hB, Bool.and_false, Bool.false_and, if_neg Bool.false_ne_true]
      rw [hmapeq]

theorem flat_nonperiodic_axis_plain_average_witness :
    perC10 1 = 0 ∧
    pt2 0 6 1 = wsumQ (quadC10.points.map fun x => x 1) quadC10.weights := by
  have hok : FlatManifold.get_new_point perC10 quadC10 = Except.ok (pt2 0 6) := by
    simp only [FlatManifold.get_new_point, FlatManifold.project_to_manifold,
      quadC10, perC10, tol]
    norm_num [checkPeriod, outsideBox, List.finRange, pt2]
    rw [if_neg (by norm_num [tol])]
    refine congrArg Except.ok ?_
    funext d
    fin_cases d <;>
      norm_num [wrapResult, adjustedPoints, minCoord, wsum, checkPeriod,
        List.finRange, pt2, Point.add_apply, Point.smul_apply, Point.zero_apply]
  exact ⟨rfl, flat_nonperiodic_axis_plain_average perC10 quadC10
    (pt2 0 6) 1 hok rfl⟩
